import Mathlib

/-!
Verification of the SINTA analytics engine (`src/app2.py`) against its
natural-language specification.

The pure data transformations of the engine are embedded shallowly:

* pandas DataFrames become Lean lists of records (structures with `ℚ` fields);
* `DataFrame.sort_values(col, ascending=False)` becomes `sortValuesDesc`, one
  concrete descending reordering.  The source never passes `kind=`, so pandas
  uses its default `kind='quicksort'`, which pandas and numpy document as NOT
  stable: the program guarantees only a descending permutation and fixes no
  order among equal keys.  `sortValuesDesc` is therefore used only for
  consequences that are invariant under which descending reordering is
  produced (summary counts, membership, threshold and gap values); whenever a
  claim depends on the tie order itself, it is judged against
  `IsSortValuesDescResult`, the documented contract of the call;
* `groupby(...).sum()` becomes filter-and-sum over the record list;
* `np.where(cond, x, np.nan)` / NaN cells become `Option` values;
* the `pandas.Series.map` failure on a non-unique index (InvalidIndexError)
  becomes an `Except.error` branch of the comparator.
-/

namespace Sinta

/-! ## Descending sort (model of `sort_values(..., ascending=False)`) -/

/-- Insert `a` into `l` before the first element whose key is `≤ key a`
(descending insertion step). -/
def insertDesc {α : Type*} (key : α → ℚ) (a : α) : List α → List α
  | [] => [a]
  | b :: l => if key b ≤ key a then a :: b :: l else b :: insertDesc key a l

/-- One concrete model of `DataFrame.sort_values(col, ascending=False)`:
a descending insertion sort by `key`.  The source leaves `kind` at its
default `'quicksort'`, which pandas documents as unstable, so the program
promises no particular tie order; this function is relied on only through
`sortValuesDesc_perm`, `sortValuesDesc_pairwise` and `length_sortValuesDesc`
— facts shared by every descending reordering.  Tie-order-dependent
properties are instead judged against `IsSortValuesDescResult`. -/
def sortValuesDesc {α : Type*} (key : α → ℚ) (l : List α) : List α :=
  l.foldr (insertDesc key) []

/-- The contract pandas documents for `sort_values(col, ascending=False)`
with the default `kind='quicksort'`: the result is some permutation of the
input that is descending in the key.  Nothing more is guaranteed — in
particular no order among rows with equal keys. -/
def IsSortValuesDescResult {α : Type*} (key : α → ℚ) (l s : List α) : Prop :=
  List.Perm s l ∧ s.Pairwise (fun a b => key b ≤ key a)

theorem insertDesc_perm {α : Type*} (key : α → ℚ) (a : α) (l : List α) :
    List.Perm (insertDesc key a l) (a :: l) := by
  induction l with
  | nil => simp [insertDesc]
  | cons b t ih =>
    by_cases h : key b ≤ key a
    · simp [insertDesc, h]
    · simp only [insertDesc, if_neg h]
      exact (ih.cons b).trans (List.Perm.swap a b t)

theorem sortValuesDesc_perm {α : Type*} (key : α → ℚ) (l : List α) :
    List.Perm (sortValuesDesc key l) l := by
  induction l with
  | nil => rfl
  | cons a t ih =>
    simpa [sortValuesDesc] using
      (insertDesc_perm key a (sortValuesDesc key t)).trans (ih.cons a)

theorem mem_insertDesc {α : Type*} {key : α → ℚ} {a x : α} {l : List α} :
    x ∈ insertDesc key a l ↔ x = a ∨ x ∈ l := by
  rw [(insertDesc_perm key a l).mem_iff]; simp

theorem mem_sortValuesDesc {α : Type*} {key : α → ℚ} {x : α} {l : List α} :
    x ∈ sortValuesDesc key l ↔ x ∈ l :=
  (sortValuesDesc_perm key l).mem_iff

theorem length_sortValuesDesc {α : Type*} (key : α → ℚ) (l : List α) :
    (sortValuesDesc key l).length = l.length :=
  (sortValuesDesc_perm key l).length_eq

theorem insertDesc_pairwise {α : Type*} {key : α → ℚ} {a : α} {l : List α}
    (h : l.Pairwise (fun x y => key y ≤ key x)) :
    (insertDesc key a l).Pairwise (fun x y => key y ≤ key x) := by
  induction l with
  | nil => simp [insertDesc]
  | cons b t ih =>
    rcases List.pairwise_cons.mp h with ⟨hb, ht⟩
    by_cases hba : key b ≤ key a
    · simp only [insertDesc, if_pos hba]
      refine List.pairwise_cons.mpr ⟨?_, h⟩
      intro y hy
      rcases List.mem_cons.mp hy with rfl | hyt
      · exact hba
      · exact le_trans (hb y hyt) hba
    · simp only [insertDesc, if_neg hba]
      refine List.pairwise_cons.mpr ⟨?_, ih ht⟩
      intro y hy
      rcases mem_insertDesc.mp hy with rfl | hyt
      · exact le_of_lt (lt_of_not_le hba)
      · exact hb y hyt

theorem sortValuesDesc_pairwise {α : Type*} (key : α → ℚ) (l : List α) :
    (sortValuesDesc key l).Pairwise (fun x y => key y ≤ key x) := by
  induction l with
  | nil => simp [sortValuesDesc]
  | cons a t ih =>
    simpa [sortValuesDesc] using insertDesc_pairwise ih

/-! ## First-match index (model of merging `rank_overall` back by name) -/

/-- Index of the first element satisfying `p` (model of a pandas left merge on
a key column: the row is matched against the first occurrence of its key). -/
def firstIdx {α : Type*} (p : α → Bool) : List α → Option Nat
  | [] => none
  | a :: l => if p a then some 0 else (firstIdx p l).map (· + 1)

theorem firstIdx_eq_some {α : Type*} {p : α → Bool} {s : List α} {j : Nat}
    (h : firstIdx p s = some j) :
    ∃ hj : j < s.length, p (s.get ⟨j, hj⟩) = true := by
  induction s generalizing j with
  | nil => simp [firstIdx] at h
  | cons a t ih =>
    by_cases ha : p a = true
    · simp only [firstIdx, if_pos ha, Option.some.injEq] at h
      subst h
      exact ⟨Nat.succ_pos _, ha⟩
    · simp only [firstIdx, if_neg ha, Option.map_eq_some'] at h
      rcases h with ⟨j', hj', rfl⟩
      rcases ih hj' with ⟨hlt, hp⟩
      exact ⟨Nat.succ_lt_succ hlt, hp⟩

/-! ## Data model: the `afiliasi` sheet and the Ranking Engine
(`load_cluster_data`, src/app2.py lines 53-74) -/

/-- One row of the `afiliasi` sheet of Sinta Metric Cluster.xlsx. -/
structure AffRecord where
  nama_afiliasi : String
  sinta_score_overall : ℚ
  sinta_score_3yr : ℚ
deriving DecidableEq, Repr

/-- `af_ranked = df_af.sort_values("sinta_score_overall", ascending=False)`. -/
def af_ranked (l : List AffRecord) : List AffRecord :=
  sortValuesDesc (fun r => r.sinta_score_overall) l

/-- `rank_overall` for a given affiliation name: 1-based position in
`af_ranked`, merged back onto `df_af` by `nama_afiliasi`
(`how="left"`: the first matching sorted row). `none` models the NaN a left
merge produces when the name is absent. -/
def rank_overall (l : List AffRecord) (nama : String) : Option Nat :=
  (firstIdx (fun r => r.nama_afiliasi == nama) (af_ranked l)).map (· + 1)

/-- `top10_threshold = af_ranked.loc[9, "sinta_score_overall"]` when the table
has at least 10 rows, else `None`. -/
def top10_threshold (l : List AffRecord) : Option ℚ :=
  if 10 ≤ (af_ranked l).length then
    ((af_ranked l)[9]?).map (fun r => r.sinta_score_overall)
  else none

/-- The numpy condition `rank_overall <= 10` on a nullable rank
(NaN compares false). -/
def rankLe10 : Option Nat → Bool
  | some k => decide (k ≤ 10)
  | none => false

/-- One row of the returned `df_af`: the record plus the derived
`rank_overall` and `gap_to_top10` columns. -/
structure ClusterRow where
  aff : AffRecord
  rank_overall : Option Nat
  gap_to_top10 : Option ℚ
deriving DecidableEq, Repr

/-- The derived affiliation table built by `load_cluster_data`:
`rank_overall` merged by name, and
`gap_to_top10 = np.where(rank_overall <= 10, 0, top10_threshold - score)`
when the table has at least 10 rows, NaN for every row otherwise. -/
def load_cluster (l : List AffRecord) : List ClusterRow :=
  l.map (fun r =>
    { aff := r
      rank_overall := Sinta.rank_overall l r.nama_afiliasi
      gap_to_top10 :=
        match top10_threshold l with
        | none => none
        | some t =>
          some (if rankLe10 (Sinta.rank_overall l r.nama_afiliasi) then 0
                else t - r.sinta_score_overall) })

/-- The worked ranking example of the spec (§8): scores 100, 90, 90, 80. -/
def exampleAffs : List AffRecord :=
  [⟨"X", 100, 0⟩, ⟨"Y", 90, 0⟩, ⟨"Z", 90, 0⟩, ⟨"W", 80, 0⟩]

/-- The worked example with its equal-score pair Y, Z in the opposite
order: an output the unstable default sort is free to produce. -/
def exampleAffsTieSwapped : List AffRecord :=
  [⟨"X", 100, 0⟩, ⟨"Z", 90, 0⟩, ⟨"Y", 90, 0⟩, ⟨"W", 80, 0⟩]

/-- C3: code-bug evidence.  The claim (and spec §4.1) requires the ranking
sort to keep equal-score records in input order as an explicitly guaranteed
stable tie-break, but `df_af.sort_values("sinta_score_overall",
ascending=False)` at src/app2.py line 53 leaves `kind` at the default
`'quicksort'`, which pandas documents as unstable: the call's contract is
only `IsSortValuesDescResult` — a descending permutation, with no tie
order.  At the worked example [{X,100},{Y,90},{Z,90},{W,80}] the output
[X,Z,Y,W] meets that contract just as well as the claimed [X,Y,Z,W], and
merging ranks back by name against it yields Z=2 and Y=3 where the claim
requires Y=2 and Z=3. -/
theorem c3_quicksort_contract_allows_tie_reorder :
    IsSortValuesDescResult (fun r => r.sinta_score_overall) exampleAffs
      exampleAffsTieSwapped
    ∧ (firstIdx (fun r => r.nama_afiliasi == "Z") exampleAffsTieSwapped).map (· + 1)
        = some 2
    ∧ (firstIdx (fun r => r.nama_afiliasi == "Y") exampleAffsTieSwapped).map (· + 1)
        = some 3
    ∧ exampleAffsTieSwapped ≠ exampleAffs := by
  refine ⟨⟨by decide, by decide⟩, by decide, by decide, by decide⟩

theorem get_inj_of_nodup_map {α β : Type*} {f : α → β} {s : List α}
    (h : (s.map f).Nodup) {i j : Fin s.length}
    (hf : f (s.get i) = f (s.get j)) : i = j := by
  have hinj := List.nodup_iff_injective_get.mp h
  have hi : (i : Nat) < (s.map f).length := by rw [List.length_map]; exact i.isLt
  have hj : (j : Nat) < (s.map f).length := by rw [List.length_map]; exact j.isLt
  have hgi : (s.map f).get ⟨i, hi⟩ = f (s.get i) := by simp
  have hgj : (s.map f).get ⟨j, hj⟩ = f (s.get j) := by simp
  have heq : (⟨(i : Nat), hi⟩ : Fin (s.map f).length) = ⟨(j : Nat), hj⟩ :=
    hinj (by rw [hgi, hgj, hf])
  have hv := congrArg Fin.val heq
  exact Fin.ext hv

/-- C9: with at least 10 affiliations, the threshold is the
`sinta_score_overall` of the rank-10 row of the sorted table, rows ranked at
most 10 have `gap_to_top10 = 0`, rows ranked beyond 10 have
`gap_to_top10 = threshold − score` which is nonnegative; with fewer than 10
affiliations the threshold is absent and every row's gap is undefined,
with no error raised (the function is total). -/
theorem c9_gap_to_top10 (l : List AffRecord)
    (hn : (l.map AffRecord.nama_afiliasi).Nodup) :
    (10 ≤ l.length →
      (∃ h9 : 9 < (af_ranked l).length,
          top10_threshold l = some ((af_ranked l).get ⟨9, h9⟩).sinta_score_overall)
      ∧ ∀ row ∈ load_cluster l,
          (∀ k, row.rank_overall = some k → k ≤ 10 → row.gap_to_top10 = some 0)
          ∧ (∀ k t, row.rank_overall = some k → 10 < k →
              top10_threshold l = some t →
              row.gap_to_top10 = some (t - row.aff.sinta_score_overall)
              ∧ 0 ≤ t - row.aff.sinta_score_overall))
    ∧ (l.length < 10 →
        top10_threshold l = none
        ∧ ∀ row ∈ load_cluster l, row.gap_to_top10 = none) := by
  have hlen : (af_ranked l).length = l.length := length_sortValuesDesc _ l
  constructor
  · intro h10
    have h9 : 9 < (af_ranked l).length := by omega
    have hthr : top10_threshold l
        = some ((af_ranked l).get ⟨9, h9⟩).sinta_score_overall := by
      rw [top10_threshold, if_pos (by omega), List.getElem?_eq_getElem h9]
      simp
    refine ⟨⟨h9, hthr⟩, ?_⟩
    intro row hrow
    rcases List.mem_map.mp hrow with ⟨r, hr, rfl⟩
    constructor
    · intro k hk hk10
      simp only at hk
      simp only [hthr, hk, rankLe10, decide_eq_true_eq]
      rw [if_pos hk10]
    · intro k t hk hk10 ht
      have htt : t = ((af_ranked l).get ⟨9, h9⟩).sinta_score_overall := by
        rw [hthr] at ht
        exact (Option.some.injEq _ _).mp ht.symm
      simp only at hk
      constructor
      · simp only [hthr, hk, rankLe10, decide_eq_true_eq]
        rw [if_neg (by omega), htt]
      · -- locate r at sorted position k-1 and compare with position 9
        rcases Option.map_eq_some'.mp hk with ⟨j, hj, hjk⟩
        rcases firstIdx_eq_some hj with ⟨hjl, hpj⟩
        have hname : ((af_ranked l).get ⟨j, hjl⟩).nama_afiliasi = r.nama_afiliasi :=
          eq_of_beq hpj
        have hmem : r ∈ af_ranked l := (sortValuesDesc_perm _ l).mem_iff.mpr hr
        rcases List.mem_iff_get.mp hmem with ⟨i, hi⟩
        have hs : ((af_ranked l).map AffRecord.nama_afiliasi).Nodup :=
          (((sortValuesDesc_perm _ l).map AffRecord.nama_afiliasi).nodup_iff).mpr hn
        have hij : (⟨j, hjl⟩ : Fin (af_ranked l).length) = i :=
          get_inj_of_nodup_map hs (by rw [hname, hi])
        have hrj : (af_ranked l).get ⟨j, hjl⟩ = r := by rw [hij, hi]
        have hjge : 9 < j := by omega
        have hpw : ((af_ranked l).get ⟨j, hjl⟩).sinta_score_overall
            ≤ ((af_ranked l).get ⟨9, h9⟩).sinta_score_overall :=
          List.pairwise_iff_get.mp (sortValuesDesc_pairwise
            (fun r : AffRecord => r.sinta_score_overall) l) ⟨9, h9⟩ ⟨j, hjl⟩ hjge
        rw [hrj] at hpw
        show 0 ≤ t - r.sinta_score_overall
        rw [htt]
        exact sub_nonneg.mpr hpw
  · intro hlt
    have hthr : top10_threshold l = none := by
      rw [top10_threshold, if_neg (by omega)]
    refine ⟨hthr, ?_⟩
    intro row hrow
    rcases List.mem_map.mp hrow with ⟨r, hr, rfl⟩
    simp only [hthr]

/-- Eleven affiliations with distinct names and strictly descending scores,
used to instantiate the ranking theorems. -/
def exTen : List AffRecord :=
  [⟨"A", 20, 0⟩, ⟨"B", 19, 0⟩, ⟨"C", 18, 0⟩, ⟨"D", 17, 0⟩, ⟨"E", 16, 0⟩,
   ⟨"F", 15, 0⟩, ⟨"G", 14, 0⟩, ⟨"H", 13, 0⟩, ⟨"I", 12, 0⟩, ⟨"J", 11, 0⟩,
   ⟨"K", 10, 0⟩]

/-- C9 witness: at the eleven-affiliation example, the threshold is the
score of the rank-10 row of the sorted table. -/
theorem c9_gap_to_top10_witness :
    (10 ≤ exTen.length)
    ∧ (∃ h9 : 9 < (af_ranked exTen).length,
        top10_threshold exTen
          = some ((af_ranked exTen).get ⟨9, h9⟩).sinta_score_overall) :=
  ⟨by decide, ((c9_gap_to_top10 exTen (by decide)).1 (by decide)).1⟩

/-! ## Data model: the `detail_kode` sheet, the Category Mapper and the
Category Aggregator (`CATEGORY_LABELS`/`CATEGORY_ORDER`, src/app2.py
lines 10-26, and the `cat_pivot` built at lines 42-50) -/

/-- `CATEGORY_LABELS`: raw `kategori_score` code → display label. -/
def CATEGORY_LABELS : List (String × String) :=
  [("Score in Publication", "Publication"),
   ("Score in HKI", "HKI"),
   ("Score in Research", "Research"),
   ("Score in Community Service", "Community Service"),
   ("Score in SDM", "SDM"),
   ("Score in Kelembagaan", "Kelembagaan")]

/-- `CATEGORY_ORDER`: the fixed enumerated display order. -/
def CATEGORY_ORDER : List String :=
  ["Publication", "Research", "Community Service", "HKI", "SDM", "Kelembagaan"]

/-- One row of the `detail_kode` sheet of Sinta Metric Cluster.xlsx. -/
structure DetailRecord where
  nama_afiliasi : String
  kode : String
  nama : String
  kategori_score : String
  weight : ℚ
  value : ℚ
  total : ℚ
deriving DecidableEq, Repr

/-- `df_detail["category"] = df_detail["kategori_score"].map(CATEGORY_LABELS)`:
`none` models the NaN produced for an unmapped raw code. -/
def detailCategory (r : DetailRecord) : Option String :=
  (CATEGORY_LABELS.find? (fun p => p.1 == r.kategori_score)).map (fun p => p.2)

/-- Row labels of `cat_pivot = df_detail.groupby(["nama_afiliasi", "category"])
["total"].sum().unstack(fill_value=0)`: affiliations having at least one
record with a mapped category (groupby drops NaN keys).  pandas sorts the
group keys; only membership and multiplicity matter here, so the first-seen
order of `dedup` is used. -/
def cat_pivot_rows (l : List DetailRecord) : List String :=
  ((l.filter (fun r => (detailCategory r).isSome)).map
    (fun r => r.nama_afiliasi)).dedup

/-- Column labels of `cat_pivot`: the mapped categories actually present in
the data (`unstack` creates no column for an absent category). -/
def cat_pivot_cols (l : List DetailRecord) : List String :=
  (l.filterMap detailCategory).dedup

/-- One cell of `cat_pivot`: the summed `total` of the records of the given
affiliation whose mapped category is the given label (`fill_value=0` makes
the cell 0 when no record matches). -/
def cat_pivot_entry (l : List DetailRecord) (aff cat : String) : ℚ :=
  ((l.filter (fun r =>
      decide (r.nama_afiliasi = aff ∧ detailCategory r = some cat))).map
    (fun r => r.total)).sum

/-- A detail table on which C4 fails: affiliation `A` has a single mapped
`Publication` record, so the pivot has one column (not one per category of
`CATEGORY_ORDER`); affiliation `B` appears in the input but only with an
unmapped raw category, so it gets no row. -/
def exDetailSparse : List DetailRecord :=
  [⟨"A", "K1", "ind1", "Score in Publication", 1, 1, 5⟩,
   ⟨"B", "K2", "ind2", "Score in Something Else", 1, 1, 5⟩]

/-- C4 counterexample: the aggregate is not dense over the fixed category
set.  `SDM` is in `CATEGORY_ORDER` but gets no column, and affiliation `B`
appears in the input but gets no row. -/
theorem c4_counterexample :
    "SDM" ∈ CATEGORY_ORDER
    ∧ "SDM" ∉ cat_pivot_cols exDetailSparse
    ∧ "B" ∈ exDetailSparse.map (fun r => r.nama_afiliasi)
    ∧ "B" ∉ cat_pivot_rows exDetailSparse := by decide

/-- C4 amended: the aggregate is dense over the affiliations and categories
actually present after mapping: row labels are exactly (and once each) the
affiliations with at least one mapped record, column labels are exactly
(and once each) the categories some record maps to, and any
(row, column) combination without a matching record holds 0, never an
undefined value. -/
theorem c4_pivot_dense_on_present (l : List DetailRecord) (aff cat : String) :
    (cat_pivot_rows l).Nodup
    ∧ (cat_pivot_cols l).Nodup
    ∧ (aff ∈ cat_pivot_rows l
        ↔ ∃ r ∈ l, r.nama_afiliasi = aff ∧ (detailCategory r).isSome)
    ∧ (cat ∈ cat_pivot_cols l ↔ ∃ r ∈ l, detailCategory r = some cat)
    ∧ ((∀ r ∈ l, ¬(r.nama_afiliasi = aff ∧ detailCategory r = some cat)) →
        cat_pivot_entry l aff cat = 0) := by
  refine ⟨List.nodup_dedup _, List.nodup_dedup _, ?_, ?_, ?_⟩
  · rw [cat_pivot_rows, List.mem_dedup]
    constructor
    · intro h
      rcases List.mem_map.mp h with ⟨r, hr, rfl⟩
      rcases List.mem_filter.mp hr with ⟨hrl, hsome⟩
      exact ⟨r, hrl, rfl, by simpa using hsome⟩
    · rintro ⟨r, hrl, rfl, hsome⟩
      exact List.mem_map.mpr ⟨r, List.mem_filter.mpr ⟨hrl, by simpa using hsome⟩, rfl⟩
  · rw [cat_pivot_cols, List.mem_dedup, List.mem_filterMap]
  · intro hnone
    have hfil : l.filter (fun r =>
        decide (r.nama_afiliasi = aff ∧ detailCategory r = some cat)) = [] := by
      rw [List.filter_eq_nil_iff]
      intro r hr
      intro hdec
      exact hnone r hr (of_decide_eq_true hdec)
    rw [cat_pivot_entry, hfil]
    rfl

/-- C4 witness: the amended density facts evaluated at the concrete sparse
table. -/
theorem c4_pivot_dense_on_present_witness :
    cat_pivot_entry exDetailSparse "A" "SDM" = 0
    ∧ "A" ∈ cat_pivot_rows exDetailSparse :=
  ⟨(c4_pivot_dense_on_present exDetailSparse "A" "SDM").2.2.2.2 (by decide),
   (c4_pivot_dense_on_present exDetailSparse "A" "SDM").2.2.1.mpr
     ⟨⟨"A", "K1", "ind1", "Score in Publication", 1, 1, 5⟩, by decide, rfl, by decide⟩⟩

theorem sum_map_add {β : Type*} (cs : List β) (f g : β → ℚ) :
    (cs.map (fun c => f c + g c)).sum = (cs.map f).sum + (cs.map g).sum := by
  induction cs with
  | nil => simp
  | cons a t ih => simp only [List.map_cons, List.sum_cons, ih]; ring

theorem sum_map_ite_eq {β : Type*} [DecidableEq β] (cs : List β) (c0 : β) (t : ℚ)
    (hnd : cs.Nodup) (hc : c0 ∈ cs) :
    (cs.map (fun c => if c0 = c then t else 0)).sum = t := by
  induction cs with
  | nil => cases hc
  | cons a cs ih =>
    rcases List.nodup_cons.mp hnd with ⟨hna, hnds⟩
    rcases List.mem_cons.mp hc with rfl | hcs
    · have hz : (cs.map (fun c => if c0 = c then t else 0)).sum = 0 := by
        refine List.sum_eq_zero ?_
        intro x hx
        rcases List.mem_map.mp hx with ⟨c, hcmem, rfl⟩
        rw [if_neg]
        intro he
        exact hna (he ▸ hcmem)
      rw [List.map_cons, List.sum_cons, hz, add_zero]
      simp
    · have hne : c0 ≠ a := fun he => hna (he ▸ hcs)
      simp only [List.map_cons, List.sum_cons, if_neg hne]
      rw [zero_add]
      exact ih hnds hcs

/-- Row sum of `cat_pivot` over any duplicate-free column set covering the
mapped categories of the affiliation's records equals the summed `total` of
its mapped records. -/
theorem sum_entries_over_cols (aff : String) (l : List DetailRecord)
    (cs : List String) (hnd : cs.Nodup)
    (hcover : ∀ r ∈ l, r.nama_afiliasi = aff →
      ∀ c, detailCategory r = some c → c ∈ cs) :
    (cs.map (fun c => cat_pivot_entry l aff c)).sum
      = ((l.filter (fun r =>
          decide (r.nama_afiliasi = aff) && (detailCategory r).isSome)).map
          (fun r => r.total)).sum := by
  induction l with
  | nil =>
    simp only [List.filter_nil, List.map_nil, List.sum_nil]
    refine List.sum_eq_zero ?_
    intro x hx
    rcases List.mem_map.mp hx with ⟨c, _, rfl⟩
    rfl
  | cons r l ih =>
    have ih' := ih (fun r' hr' => hcover r' (List.mem_cons_of_mem r hr'))
    have hent : ∀ c : String, cat_pivot_entry (r :: l) aff c
        = (if r.nama_afiliasi = aff ∧ detailCategory r = some c
           then r.total else 0) + cat_pivot_entry l aff c := by
      intro c
      rw [cat_pivot_entry, cat_pivot_entry, List.filter_cons]
      by_cases hp : r.nama_afiliasi = aff ∧ detailCategory r = some c
      · rw [if_pos (decide_eq_true hp), if_pos hp, List.map_cons, List.sum_cons]
      · rw [if_neg (by simpa using hp), if_neg hp, zero_add]
    have hsplit : (cs.map (fun c => cat_pivot_entry (r :: l) aff c)).sum
        = (cs.map (fun c =>
            if r.nama_afiliasi = aff ∧ detailCategory r = some c
            then r.total else 0)).sum
          + (cs.map (fun c => cat_pivot_entry l aff c)).sum := by
      rw [← sum_map_add]
      exact congrArg List.sum (List.map_congr_left (fun c _ => hent c))
    rw [hsplit, ih']
    by_cases hra : r.nama_afiliasi = aff
    · cases hcat : detailCategory r with
      | some c0 =>
        have hc0 : c0 ∈ cs := hcover r (List.mem_cons_self r l) hra c0 hcat
        have hone : (cs.map (fun c =>
            if r.nama_afiliasi = aff ∧ some c0 = some c
            then r.total else 0)).sum = r.total := by
          have hfun : ∀ c ∈ cs,
              (if r.nama_afiliasi = aff ∧ some c0 = some c
               then r.total else 0) = (if c0 = c then r.total else 0) := by
            intro c _
            by_cases hcc : c0 = c
            · rw [if_pos ⟨hra, congrArg some hcc⟩, if_pos hcc]
            · rw [if_neg (fun h => hcc (Option.some.inj h.2)), if_neg hcc]
          rw [List.map_congr_left hfun]
          exact sum_map_ite_eq cs c0 r.total hnd hc0
        have hpred : (decide (r.nama_afiliasi = aff)
            && (detailCategory r).isSome) = true := by
          rw [hcat]
          simp [hra]
        rw [List.filter_cons, if_pos hpred, List.map_cons, List.sum_cons, hone]
      | none =>
        have hzero : (cs.map (fun c =>
            if r.nama_afiliasi = aff ∧ (none : Option String) = some c
            then r.total else 0)).sum = 0 := by
          refine List.sum_eq_zero ?_
          intro x hx
          rcases List.mem_map.mp hx with ⟨c, _, rfl⟩
          exact if_neg (fun h => Option.noConfusion h.2)
        have hpred : (decide (r.nama_afiliasi = aff)
            && (detailCategory r).isSome) = false := by
          rw [hcat]
          simp
        rw [List.filter_cons, if_neg (by simp [hpred]), hzero, zero_add]
    · have hzero : (cs.map (fun c =>
          if r.nama_afiliasi = aff ∧ detailCategory r = some c
          then r.total else 0)).sum = 0 := by
        refine List.sum_eq_zero ?_
        intro x hx
        rcases List.mem_map.mp hx with ⟨c, _, rfl⟩
        exact if_neg (fun h => hra h.1)
      have hpred : (decide (r.nama_afiliasi = aff)
          && (detailCategory r).isSome) = false := by
        simp [hra]
      rw [List.filter_cons, if_neg (by simp [hpred]), hzero, zero_add]

/-- C6: for every detail table and every affiliation, the sum over the pivot
columns of that affiliation's `cat_pivot` entries equals the sum of the
`total` fields of its records whose raw category maps to a known label;
records with an unmapped raw category contribute nothing, and the
computation is total (no error). -/
theorem c6_category_conservation (l : List DetailRecord) (aff : String) :
    ((cat_pivot_cols l).map (fun c => cat_pivot_entry l aff c)).sum
      = ((l.filter (fun r =>
          decide (r.nama_afiliasi = aff) && (detailCategory r).isSome)).map
          (fun r => r.total)).sum := by
  refine sum_entries_over_cols aff l (cat_pivot_cols l) (List.nodup_dedup _) ?_
  intro r hr hra c hc
  rw [cat_pivot_cols, List.mem_dedup, List.mem_filterMap]
  exact ⟨r, hr, hc⟩

/-! ## High-Leverage Scorer (`get_high_leverage_metrics`, src/app2.py
lines 171-181) -/

/-- `potential_gain = weight * (1 - value)`, unclamped. -/
def potential_gain (r : DetailRecord) : ℚ :=
  r.weight * (1 - r.value)

/-- `get_high_leverage_metrics(df_detail, selected_affiliation, top_k)`:
filter to the affiliation, attach `potential_gain`, sort descending on it
(again with the unstable default `kind`), truncate to `top_k`.  (The early
return on an empty filter result is the same list as sorting and truncating
the empty list.) -/
def get_high_leverage_metrics (df_detail : List DetailRecord)
    (selected_affiliation : String) (top_k : Nat) : List (DetailRecord × ℚ) :=
  let df := df_detail.filter (fun r => r.nama_afiliasi == selected_affiliation)
  (sortValuesDesc Prod.snd (df.map (fun r => (r, potential_gain r)))).take top_k

/-- Two records of one affiliation with equal potential gain
(1 × (1 − 0) = 1 each) but distinct codes. -/
def exHLa : DetailRecord := ⟨"A", "K1", "i1", "Score in Publication", 1, 0, 7⟩

/-- Second record of the equal-gain pair. -/
def exHLb : DetailRecord := ⟨"A", "K2", "i2", "Score in Research", 1, 0, 3⟩

/-- C8: code-bug evidence.  The claim requires the high-leverage sort to
break ties by input order as a guaranteed stable tie-break, but
`df.sort_values("potential_gain", ascending=False)` at src/app2.py line 179
leaves `kind` at the default `'quicksort'`, documented unstable: the call's
contract is only `IsSortValuesDescResult`.  With two records of equal gain
1 (weight 1, value 0), the reversed order satisfies that contract just as
well as the claimed input order, so the program does not guarantee the
claimed tie-break.  (The gain formula itself is implemented exactly:
`potential_gain = weight * (1 - value)`.) -/
theorem c8_quicksort_contract_allows_tie_reorder :
    potential_gain exHLa = 1
    ∧ potential_gain exHLb = 1
    ∧ IsSortValuesDescResult (Prod.snd : DetailRecord × ℚ → ℚ)
        [(exHLa, potential_gain exHLa), (exHLb, potential_gain exHLb)]
        [(exHLb, potential_gain exHLb), (exHLa, potential_gain exHLa)]
    ∧ [(exHLb, potential_gain exHLb), (exHLa, potential_gain exHLa)]
        ≠ [(exHLa, potential_gain exHLa), (exHLb, potential_gain exHLb)] := by
  have hga : potential_gain exHLa = 1 := by norm_num [potential_gain, exHLa]
  have hgb : potential_gain exHLb = 1 := by norm_num [potential_gain, exHLb]
  refine ⟨hga, hgb, ⟨List.Perm.swap _ _ _, ?_⟩, ?_⟩
  · refine List.pairwise_cons.mpr ⟨?_, List.pairwise_singleton _ _⟩
    intro y hy
    rcases List.mem_singleton.mp hy with rfl
    show potential_gain exHLa ≤ potential_gain exHLb
    rw [hga, hgb]
  · intro h
    simp [exHLa, exHLb] at h

/-! ## Simulation Engine (the "Hitung Simulasi" block of `main`,
src/app2.py lines 619-647). The engine operates on the detail records of one
affiliation (`df_aff_detail`), a selected category list and a delta. -/

/-- The mask `df_sim["category"].isin(sim_categories)` (NaN is never in the
selection). -/
def inSimCategories (sim_categories : List String) (r : DetailRecord) : Bool :=
  match detailCategory r with
  | some c => sim_categories.contains c
  | none => false

/-- `value_sim`: the record's value, raised by `delta_value` and clipped at
an upper bound of 1 (`.clip(upper=1.0)`, no lower clip) exactly on the
masked rows. -/
def value_sim (sim_categories : List String) (delta_value : ℚ)
    (r : DetailRecord) : ℚ :=
  if inSimCategories sim_categories r then min (r.value + delta_value) 1
  else r.value

/-- `total_sim = weight * value_sim`. -/
def total_sim (sim_categories : List String) (delta_value : ℚ)
    (r : DetailRecord) : ℚ :=
  r.weight * value_sim sim_categories delta_value r

/-- `original_total`: per-category sum of the supplied `total` column
(`df_aff_detail.groupby("category")["total"].sum()`). -/
def original_total (l : List DetailRecord) (c : String) : ℚ :=
  ((l.filter (fun r => detailCategory r == some c)).map (fun r => r.total)).sum

/-- `simulated_total`: per-category sum of the recomputed `total_sim`
(`df_sim.groupby("category")["total_sim"].sum()`). -/
def simulated_total (sim_categories : List String) (delta_value : ℚ)
    (l : List DetailRecord) (c : String) : ℚ :=
  ((l.filter (fun r => detailCategory r == some c)).map
    (total_sim sim_categories delta_value)).sum

/-- `change = simulated_total - original_total` per category. -/
def sim_change (sim_categories : List String) (delta_value : ℚ)
    (l : List DetailRecord) (c : String) : ℚ :=
  simulated_total sim_categories delta_value l c - original_total l c

/-- `change_percent = np.where(original_total > 0, change / original_total *
100, np.nan)`. -/
def sim_change_percent (sim_categories : List String) (delta_value : ℚ)
    (l : List DetailRecord) (c : String) : Option ℚ :=
  if 0 < original_total l c then
    some (sim_change sim_categories delta_value l c / original_total l c * 100)
  else none

/-- The category labels of the simulation result table: the group keys of
the two `groupby("category")` aggregations (identical key sets, the mapped
categories present in the affiliation's records). -/
def sim_result_categories (l : List DetailRecord) : List String :=
  (l.filterMap detailCategory).dedup

/-- C7: with a non-negative delta, a record in a selected category gets
`value_sim = min(1, value + delta)` (upper-clamped only), any other record
keeps `value_sim = value`; `total_sim = weight * value_sim`; per category,
`change = simulated_total - original_total`, and `change_percent` is
`change / original_total * 100` when `original_total > 0` and undefined
otherwise. -/
theorem c7_simulation_formulas (sim_categories : List String)
    (delta_value : ℚ) (l : List DetailRecord) (r : DetailRecord) (c : String)
    (hd : 0 ≤ delta_value) :
    (inSimCategories sim_categories r = true →
      value_sim sim_categories delta_value r = min 1 (r.value + delta_value))
    ∧ (inSimCategories sim_categories r = false →
      value_sim sim_categories delta_value r = r.value)
    ∧ total_sim sim_categories delta_value r
        = r.weight * value_sim sim_categories delta_value r
    ∧ sim_change sim_categories delta_value l c
        = simulated_total sim_categories delta_value l c - original_total l c
    ∧ (0 < original_total l c →
        sim_change_percent sim_categories delta_value l c
          = some (sim_change sim_categories delta_value l c
                    / original_total l c * 100))
    ∧ (¬ 0 < original_total l c →
        sim_change_percent sim_categories delta_value l c = none) := by
  refine ⟨?_, ?_, rfl, rfl, ?_, ?_⟩
  · intro h
    rw [value_sim, if_pos h, min_comm]
  · intro h
    rw [value_sim, if_neg (by simp [h])]
  · intro h
    rw [sim_change_percent, if_pos h]
  · intro h
    rw [sim_change_percent, if_neg h]

/-- A record set exercising the simulation formulas: one `Research` record
with weight 2, value 1/2 and a supplied `total` of 7 (which differs from
`weight * value = 1`). -/
def exSimDetail : List DetailRecord :=
  [⟨"A", "K1", "ind1", "Score in Research", 2, 1/2, 7⟩]

/-- C7 witness: the formulas instantiated at the concrete record set with
selection `[Publication]` and delta 1/10: the unselected `Research` record
keeps its value. -/
theorem c7_simulation_formulas_witness :
    value_sim ["Publication"] (1/10) ⟨"A", "K1", "ind1", "Score in Research", 2, 1/2, 7⟩
      = (1/2 : ℚ) :=
  (c7_simulation_formulas ["Publication"] (1/10) exSimDetail
     ⟨"A", "K1", "ind1", "Score in Research", 2, 1/2, 7⟩ "Research"
     (by norm_num)).2.1 (by decide)

/-- C2 counterexample: the `Research` category is untouched by the selection
`[Publication]`, yet its `change` is not 0: `original_total` sums the
supplied `total` column (7) while `simulated_total` recomputes
`weight * value` (2 * 1/2 = 1), so `change = -6`. -/
theorem c2_counterexample :
    (∀ r ∈ exSimDetail, inSimCategories ["Publication"] r = false)
    ∧ sim_change ["Publication"] (1/10) exSimDetail "Research" = -6
    ∧ sim_change ["Publication"] (1/10) exSimDetail "Research" ≠ 0 := by
  have hcatbeq : (detailCategory ⟨"A", "K1", "ind1", "Score in Research", 2, 1/2, 7⟩
      == some "Research") = true := by decide
  have hmask : inSimCategories ["Publication"]
      ⟨"A", "K1", "ind1", "Score in Research", 2, 1/2, 7⟩ = false := by decide
  have hfil : List.filter (fun r => detailCategory r == some "Research") exSimDetail
      = [(⟨"A", "K1", "ind1", "Score in Research", 2, 1/2, 7⟩ : DetailRecord)] := by
    simp only [exSimDetail, List.filter_cons, hcatbeq, if_true, List.filter_nil]
  have hval : sim_change ["Publication"] (1/10) exSimDetail "Research" = -6 := by
    rw [sim_change, simulated_total, original_total, hfil]
    norm_num [total_sim, value_sim, hmask]
  refine ⟨by decide, hval, by rw [hval]; norm_num⟩

/-- C2 amended: provided every record's supplied `total` equals
`weight * value` (the documented weight-scaled relation), a category that is
not in the selection has `simulated_total = original_total`, i.e. zero
change — and it still appears in the simulation result whenever the
affiliation has at least one record mapped to it (in particular, with an
empty selection every category present has zero change). -/
theorem c2_untouched_categories_zero_change (sim_categories : List String)
    (delta_value : ℚ) (l : List DetailRecord) (c : String)
    (htot : ∀ r ∈ l, r.total = r.weight * r.value)
    (hc : c ∉ sim_categories) :
    sim_change sim_categories delta_value l c = 0
    ∧ ((∃ r ∈ l, detailCategory r = some c) → c ∈ sim_result_categories l) := by
  constructor
  · rw [sim_change, sub_eq_zero, simulated_total, original_total]
    refine congrArg List.sum (List.map_congr_left ?_)
    intro r hr
    rcases List.mem_filter.mp hr with ⟨hrl, hcr⟩
    have hcat : detailCategory r = some c := eq_of_beq hcr
    have hmask : inSimCategories sim_categories r = false := by
      rw [inSimCategories, hcat]
      simpa using hc
    rw [total_sim, value_sim, if_neg (by simp [hmask]), htot r hrl]
  · intro hex
    rcases hex with ⟨r, hrl, hcat⟩
    rw [sim_result_categories, List.mem_dedup, List.mem_filterMap]
    exact ⟨r, hrl, hcat⟩

/-- A record whose supplied `total` agrees with `weight * value`. -/
def exSimConsistent : List DetailRecord :=
  [⟨"A", "K1", "ind1", "Score in Research", 2, 1/2, 1⟩]

/-- C2 witness: the amended claim instantiated at a consistent record set —
`Research` is untouched by the `[Publication]` selection, its change is 0
and it appears in the result. -/
theorem c2_untouched_categories_zero_change_witness :
    sim_change ["Publication"] (1/10) exSimConsistent "Research" = 0
    ∧ "Research" ∈ sim_result_categories exSimConsistent := by
  have htot : ∀ r ∈ exSimConsistent, r.total = r.weight * r.value := by
    intro r hr
    rw [exSimConsistent, List.mem_singleton] at hr
    subst hr
    norm_num
  have h := c2_untouched_categories_zero_change ["Publication"] (1/10)
    exSimConsistent "Research" htot (by decide)
  exact ⟨h.1, h.2 ⟨⟨"A", "K1", "ind1", "Score in Research", 2, 1/2, 1⟩,
    List.mem_singleton.mpr rfl, by decide⟩⟩

/-! ## Data model: Sinta Metrics Detail and the Comparator
(`compare_universities_df`, src/app2.py lines 213-255, and the compare-tab
pipeline at lines 906-929) -/

/-- The three score columns selectable in the compare tab. -/
inductive MetricCol where
  | overallTotal
  | threeYrTotal
  | overallValue
deriving DecidableEq, Repr

/-- One row of the `metrics_details` sheet of Sinta Metrics Detail.xlsx.
`area` is an `Option` because the category-like column may be empty (NaN). -/
structure MetricsRecord where
  affiliation_name : String
  code : String
  name : String
  area : Option String
  sinta_v3_overall_value : ℚ
  sinta_v3_overall_total : ℚ
  sinta_v3_3yr_value : ℚ
  sinta_v3_3yr_total : ℚ
deriving DecidableEq, Repr

/-- The selected metric column of a record. -/
def metricScore : MetricCol → MetricsRecord → ℚ
  | .overallTotal, r => r.sinta_v3_overall_total
  | .threeYrTotal, r => r.sinta_v3_3yr_total
  | .overallValue, r => r.sinta_v3_overall_value

/-- One row of `pd.merge(base, comp, on="code", how="outer")` before the
fill steps: `none` fields model the NaN cells of an unmatched side. -/
structure MergedRow where
  code : String
  name : Option String
  category : Option String
  category_b : Option String
  score_selected : Option ℚ
  score_compare : Option ℚ
deriving DecidableEq, Repr

/-- Merge rows contributed by one row of A (`base`): one row per matching
row of B, or a single B-missing row when no code of B matches. -/
def mergeLeft (df2 : List MetricsRecord) (m : MetricCol) (r1 : MetricsRecord) :
    List MergedRow :=
  match df2.filter (fun r2 => r2.code == r1.code) with
  | [] => [⟨r1.code, some r1.name, r1.area, none, some (metricScore m r1), none⟩]
  | ms => ms.map (fun r2 =>
      ⟨r1.code, some r1.name, r1.area, r2.area, some (metricScore m r1),
       some (metricScore m r2)⟩)

/-- Merge row contributed by a row of B whose code does not occur in A. -/
def mergeRight (m : MetricCol) (r2 : MetricsRecord) : MergedRow :=
  ⟨r2.code, none, none, r2.area, none, some (metricScore m r2)⟩

/-- The outer merge on `code`: A's rows joined against B's matching rows,
followed by B's rows whose code A lacks. -/
def mergeOuter (df1 df2 : List MetricsRecord) (m : MetricCol) : List MergedRow :=
  (df1.map (mergeLeft df2 m)).flatten
    ++ (df2.filter (fun r2 => !(df1.any (fun r1 => r1.code == r2.code)))).map
        (mergeRight m)

/-- One row of the comparator output. -/
structure CompRow where
  code : String
  name : Option String
  category : Option String
  score_selected : ℚ
  score_compare : ℚ
  diff_abs : ℚ
  diff_pct : Option ℚ
deriving DecidableEq, Repr

/-- The fill/difference steps on one merged row: back-fill `name` from B's
code→name lookup, take A's category falling back to B's, fill missing
scores with 0, `diff_abs = score_selected - score_compare`, and
`diff_pct = np.where(score_compare != 0, diff_abs / score_compare * 100,
np.nan)`. -/
def fillCompRow (df2 : List MetricsRecord) (m : MetricCol) (w : MergedRow) :
    CompRow :=
  { code := w.code
    name := match w.name with
      | some n => some n
      | none => (df2.find? (fun r => r.code == w.code)).map (fun r => r.name)
    category := match w.category with
      | some c => some c
      | none => w.category_b
    score_selected := w.score_selected.getD 0
    score_compare := w.score_compare.getD 0
    diff_abs := w.score_selected.getD 0 - w.score_compare.getD 0
    diff_pct :=
      if w.score_compare.getD 0 ≠ 0 then
        some ((w.score_selected.getD 0 - w.score_compare.getD 0)
                / w.score_compare.getD 0 * 100)
      else none }

/-- `compare_universities_df(df_md, aff1, aff2, metric_col)`.  The name
back-fill `df["code"].map(df2.set_index("code")["name"])` is a pandas
`Series.map` against a Series whose index is B's code column; pandas raises
`InvalidIndexError` when that index is not unique, modelled as the
`Except.error` branch. -/
def compare_universities_df (df_md : List MetricsRecord) (aff1 aff2 : String)
    (m : MetricCol) : Except String (List CompRow) :=
  if ((df_md.filter (fun r => r.affiliation_name == aff2)).map
        (fun r => r.code)).Nodup then
    Except.ok
      ((mergeOuter (df_md.filter (fun r => r.affiliation_name == aff1))
          (df_md.filter (fun r => r.affiliation_name == aff2)) m).map
        (fillCompRow (df_md.filter (fun r => r.affiliation_name == aff2)) m))
  else
    Except.error "InvalidIndexError: Reindexing only valid with uniquely valued Index objects"

/-- The compare-tab category filter, applied only when the multiselect is
nonempty (`if cat_filter:`); rows with a NaN category never pass a nonempty
filter. -/
def comp_filter_category (cat_filter : List String) (rows : List CompRow) :
    List CompRow :=
  if cat_filter.isEmpty then rows
  else rows.filter (fun r =>
    match r.category with
    | some c => cat_filter.contains c
    | none => false)

/-- `df_comp.sort_values("diff_abs", key=lambda s: s.abs(),
ascending=False).head(show_n)`. -/
def comp_top_n (show_n : Nat) (rows : List CompRow) : List CompRow :=
  (sortValuesDesc (fun r => |r.diff_abs|) rows).take show_n

/-- The summary triple (strictly greater, strictly less, equal) counted
over a row list. -/
def comp_summary (rows : List CompRow) : Nat × Nat × Nat :=
  ((rows.filter (fun r => decide (0 < r.diff_abs))).length,
   (rows.filter (fun r => decide (r.diff_abs < 0))).length,
   (rows.filter (fun r => decide (r.diff_abs = 0))).length)

/-- The compare-tab pipeline as executed at src/app2.py lines 906-929:
compare, category-filter, sort descending by `|diff_abs|`, truncate to
`show_n`, then count the summary triple over the *truncated* rows. -/
def tab5_compare_summary (df_md : List MetricsRecord) (aff1 aff2 : String)
    (m : MetricCol) (cat_filter : List String) (show_n : Nat) :
    Except String (Nat × Nat × Nat) :=
  (compare_universities_df df_md aff1 aff2 m).map
    (fun rows =>
      comp_summary (comp_top_n show_n (comp_filter_category cat_filter rows)))

/-- A metrics-detail table in which the compare side `B` has two records
with the same code `Y` while `A` has one record. -/
def exMdDupB : List MetricsRecord :=
  [⟨"A", "X", "nA", none, 0, 1, 0, 0⟩,
   ⟨"B", "Y", "n1", none, 0, 2, 0, 0⟩,
   ⟨"B", "Y", "n2", none, 0, 3, 0, 0⟩]

/-- C10: the comparator is partial on duplicate compare-side keys: with two
`B` records sharing code `Y` (and `A` nonempty), `compare_universities_df`
raises the pandas `InvalidIndexError` instead of returning an outer-join
result.  Uniqueness of B's codes is an unstated precondition. -/
theorem c10_duplicate_compare_codes_error :
    compare_universities_df exMdDupB "A" "B" MetricCol.overallTotal
      = Except.error
          "InvalidIndexError: Reindexing only valid with uniquely valued Index objects"
    ∧ (exMdDupB.filter
        (fun r => r.affiliation_name == "A")).length = 1 := by
  constructor
  · rw [compare_universities_df]
    rw [if_neg (by decide)]
  · decide

theorem length_filter_le_one_of_nodup_map {α β : Type*} [BEq β] [LawfulBEq β]
    {f : α → β} {l : List α} (h : (l.map f).Nodup) (c : β) :
    (l.filter (fun x => f x == c)).length ≤ 1 := by
  induction l with
  | nil => simp
  | cons a t ih =>
    rw [List.map_cons] at h
    rcases List.nodup_cons.mp h with ⟨hna, hnt⟩
    rw [List.filter_cons]
    by_cases hc : (f a == c) = true
    · rw [if_pos hc]
      have hceq : f a = c := eq_of_beq hc
      have htnil : t.filter (fun x => f x == c) = [] := by
        rw [List.filter_eq_nil_iff]
        intro x hx hbx
        have hfx : f x = f a := (eq_of_beq hbx).trans hceq.symm
        exact hna (hfx ▸ List.mem_map_of_mem f hx)
      rw [htnil]
      simp
    · rw [if_neg hc]
      exact ih hnt

theorem mergeLeft_map_code {df2 : List MetricsRecord} (m : MetricCol)
    (hB : (df2.map (fun r => r.code)).Nodup) (r1 : MetricsRecord) :
    (mergeLeft df2 m r1).map (fun w => w.code) = [r1.code] := by
  cases hfil : df2.filter (fun r2 => r2.code == r1.code) with
  | nil =>
    unfold mergeLeft
    rw [hfil]
    rfl
  | cons r2 ms =>
    have hlen := length_filter_le_one_of_nodup_map hB r1.code
    rw [hfil] at hlen
    have hms : ms = [] := by
      cases ms with
      | nil => rfl
      | cons x xs => simp at hlen
    subst hms
    unfold mergeLeft
    rw [hfil]
    rfl

theorem flatten_map_singleton {α β : Type*} (f : α → β) (l : List α) :
    (l.map (fun a => [f a])).flatten = l.map f := by
  induction l with
  | nil => rfl
  | cons a t ih => simp [ih]

theorem mergeOuter_map_code (df1 df2 : List MetricsRecord) (m : MetricCol)
    (hB : (df2.map (fun r => r.code)).Nodup) :
    (mergeOuter df1 df2 m).map (fun w => w.code)
      = df1.map (fun r => r.code)
        ++ (df2.filter (fun r2 =>
            !(df1.any (fun r1 => r1.code == r2.code)))).map (fun r => r.code) := by
  rw [mergeOuter, List.map_append]
  congr 1
  · rw [List.map_flatten, List.map_map]
    have hpt : df1.map (List.map (fun w => w.code) ∘ mergeLeft df2 m)
        = df1.map (fun r1 => [r1.code]) :=
      List.map_congr_left (fun r1 _ => mergeLeft_map_code m hB r1)
    rw [hpt, flatten_map_singleton (fun r : MetricsRecord => r.code) df1]
  · rw [List.map_map]
    exact List.map_congr_left (fun r2 _ => rfl)

/-- Which sides of the outer join a merged row carries: a row whose code is
absent from one side has `none` (NaN) in that side's score. -/
theorem mergeOuter_missing_side (df1 df2 : List MetricsRecord) (m : MetricCol)
    (w : MergedRow) (hw : w ∈ mergeOuter df1 df2 m) :
    (w.code ∈ df1.map (fun r => r.code) ∨ w.score_selected = none)
    ∧ (w.code ∈ df2.map (fun r => r.code) ∨ w.score_compare = none) := by
  rcases List.mem_append.mp hw with hleft | hright
  · rcases List.mem_flatten.mp hleft with ⟨ws, hws, hwin⟩
    rcases List.mem_map.mp hws with ⟨r1, hr1, rfl⟩
    cases hfil : df2.filter (fun r2 => r2.code == r1.code) with
    | nil =>
      unfold mergeLeft at hwin
      rw [hfil] at hwin
      rcases List.mem_singleton.mp hwin with rfl
      exact ⟨Or.inl (List.mem_map_of_mem _ hr1), Or.inr rfl⟩
    | cons r2 ms =>
      unfold mergeLeft at hwin
      rw [hfil] at hwin
      rcases List.mem_map.mp hwin with ⟨r2', hr2', rfl⟩
      have hr2f : r2' ∈ df2.filter (fun x => x.code == r1.code) := by
        rw [hfil]
        exact hr2'
      rcases List.mem_filter.mp hr2f with ⟨hr2d, hbeq⟩
      refine ⟨Or.inl (List.mem_map_of_mem _ hr1), Or.inl ?_⟩
      have hce : r2'.code = r1.code := eq_of_beq hbeq
      exact hce ▸ List.mem_map_of_mem (fun r : MetricsRecord => r.code) hr2d
  · rcases List.mem_map.mp hright with ⟨r2, hr2, rfl⟩
    rcases List.mem_filter.mp hr2 with ⟨hr2d, _⟩
    exact ⟨Or.inr rfl, Or.inl (List.mem_map_of_mem (fun r : MetricsRecord => r.code) hr2d)⟩

/-- A metrics-detail table in which the selected side `A` has two records
with the same code `X` and the compare side `B` has none. -/
def exMdDupA : List MetricsRecord :=
  [⟨"A", "X", "n1", none, 0, 1, 0, 0⟩,
   ⟨"A", "X", "n2", none, 0, 2, 0, 0⟩]

/-- C5 counterexample: with duplicate codes on the selected side, code `X`
appears twice in the comparator output, not exactly once, refuting the
claim for arbitrary record sets. -/
theorem c5_counterexample :
    ∃ rows, compare_universities_df exMdDupA "A" "B" MetricCol.overallTotal
        = Except.ok rows ∧ rows.map (fun r => r.code) = ["X", "X"] := by
  refine ⟨_, rfl, ?_⟩
  decide

/-- C5 amended: when each side's filtered records carry pairwise-distinct
codes, the comparator succeeds, its output code list is duplicate-free and
holds exactly the union of A's and B's codes, a score missing on one side
defaults to 0, `diff_abs = score_selected - score_compare` on every row,
and `diff_pct` is undefined exactly when `score_compare = 0`. -/
theorem c5_outer_join (df_md : List MetricsRecord) (aff1 aff2 : String)
    (m : MetricCol)
    (hA : ((df_md.filter (fun r => r.affiliation_name == aff1)).map
        (fun r => r.code)).Nodup)
    (hB : ((df_md.filter (fun r => r.affiliation_name == aff2)).map
        (fun r => r.code)).Nodup) :
    ∃ rows, compare_universities_df df_md aff1 aff2 m = Except.ok rows
      ∧ (rows.map (fun r => r.code)).Nodup
      ∧ (∀ c, c ∈ rows.map (fun r => r.code)
          ↔ (c ∈ (df_md.filter (fun r => r.affiliation_name == aff1)).map
                (fun r => r.code)
             ∨ c ∈ (df_md.filter (fun r => r.affiliation_name == aff2)).map
                (fun r => r.code)))
      ∧ ∀ row ∈ rows,
          row.diff_abs = row.score_selected - row.score_compare
          ∧ (row.diff_pct = none ↔ row.score_compare = 0)
          ∧ (row.code ∉ (df_md.filter (fun r => r.affiliation_name == aff2)).map
                (fun r => r.code)
              → row.score_compare = 0)
          ∧ (row.code ∉ (df_md.filter (fun r => r.affiliation_name == aff1)).map
                (fun r => r.code)
              → row.score_selected = 0) := by
  refine ⟨(mergeOuter (df_md.filter (fun r => r.affiliation_name == aff1))
      (df_md.filter (fun r => r.affiliation_name == aff2)) m).map
      (fillCompRow (df_md.filter (fun r => r.affiliation_name == aff2)) m),
    ?_, ?_, ?_, ?_⟩
  · rw [compare_universities_df, if_pos hB]
  · rw [List.map_map]
    have hcodes : (mergeOuter (df_md.filter (fun r => r.affiliation_name == aff1))
        (df_md.filter (fun r => r.affiliation_name == aff2)) m).map
          ((fun r : CompRow => r.code)
            ∘ fillCompRow (df_md.filter (fun r => r.affiliation_name == aff2)) m)
        = (mergeOuter (df_md.filter (fun r => r.affiliation_name == aff1))
            (df_md.filter (fun r => r.affiliation_name == aff2)) m).map
          (fun w => w.code) :=
      List.map_congr_left (fun w _ => rfl)
    rw [hcodes, mergeOuter_map_code _ _ m hB, List.nodup_append]
    have hsub : List.Sublist
        (((df_md.filter (fun r => r.affiliation_name == aff2)).filter
            (fun r2 => !((df_md.filter (fun r => r.affiliation_name == aff1)).any
              (fun r1 => r1.code == r2.code)))).map (fun r => r.code))
        ((df_md.filter (fun r => r.affiliation_name == aff2)).map
          (fun r => r.code)) :=
      List.Sublist.map _ (List.filter_sublist _)
    refine ⟨hA, hB.sublist hsub, ?_⟩
    intro c hc1 hc2
    rcases List.mem_map.mp hc2 with ⟨r2, hr2, rfl⟩
    rcases List.mem_filter.mp hr2 with ⟨hr2d, hnotany⟩
    rcases List.mem_map.mp hc1 with ⟨r1, hr1, hcode⟩
    have hany : (df_md.filter (fun r => r.affiliation_name == aff1)).any
        (fun x => x.code == r2.code) = true :=
      List.any_eq_true.mpr ⟨r1, hr1, beq_iff_eq.mpr hcode⟩
    rw [hany] at hnotany
    simp at hnotany
  · intro c
    rw [List.map_map]
    have hcodes : (mergeOuter (df_md.filter (fun r => r.affiliation_name == aff1))
        (df_md.filter (fun r => r.affiliation_name == aff2)) m).map
          ((fun r : CompRow => r.code)
            ∘ fillCompRow (df_md.filter (fun r => r.affiliation_name == aff2)) m)
        = (mergeOuter (df_md.filter (fun r => r.affiliation_name == aff1))
            (df_md.filter (fun r => r.affiliation_name == aff2)) m).map
          (fun w => w.code) :=
      List.map_congr_left (fun w _ => rfl)
    rw [hcodes, mergeOuter_map_code _ _ m hB, List.mem_append]
    constructor
    · rintro (h1 | h2)
      · exact Or.inl h1
      · rcases List.mem_map.mp h2 with ⟨r2, hr2, rfl⟩
        exact Or.inr (List.mem_map_of_mem _ (List.mem_filter.mp hr2).1)
    · rintro (h1 | h2)
      · exact Or.inl h1
      · by_cases hin : c ∈ (df_md.filter (fun r => r.affiliation_name == aff1)).map
            (fun r => r.code)
        · exact Or.inl hin
        · rcases List.mem_map.mp h2 with ⟨r2, hr2, rfl⟩
          refine Or.inr (List.mem_map_of_mem _ (List.mem_filter.mpr ⟨hr2, ?_⟩))
          have hanyf : (df_md.filter (fun r => r.affiliation_name == aff1)).any
              (fun x => x.code == r2.code) = false := by
            rw [← Bool.not_eq_true, List.any_eq_true]
            rintro ⟨r1, hr1, hbeq⟩
            exact hin ((eq_of_beq hbeq) ▸ List.mem_map_of_mem (fun r : MetricsRecord => r.code) hr1)
          rw [hanyf]
          rfl
  · intro row hrow
    rcases List.mem_map.mp hrow with ⟨w, hw, rfl⟩
    have hms := mergeOuter_missing_side _ _ m w hw
    refine ⟨rfl, ?_, ?_, ?_⟩
    · show (if w.score_compare.getD 0 ≠ 0 then
          some ((w.score_selected.getD 0 - w.score_compare.getD 0)
                  / w.score_compare.getD 0 * 100)
        else none) = none ↔ w.score_compare.getD 0 = 0
      by_cases h : w.score_compare.getD 0 = 0
      · rw [if_neg (not_not_intro h)]
        exact ⟨fun _ => h, fun _ => rfl⟩
      · rw [if_pos h]
        exact ⟨fun hco => (Option.some_ne_none _ hco).elim, fun hh => absurd hh h⟩
    · intro hnot
      rcases hms.2 with hin | hnone
      · exact absurd hin hnot
      · show w.score_compare.getD 0 = 0
        rw [hnone]
        rfl
    · intro hnot
      rcases hms.1 with hin | hnone
      · exact absurd hin hnot
      · show w.score_selected.getD 0 = 0
        rw [hnone]
        rfl

/-- A metrics-detail table with one `A` record (code `X`) and one `B`
record (code `Y`), both sides duplicate-free. -/
def exMdPair : List MetricsRecord :=
  [⟨"A", "X", "n1", none, 0, 5, 0, 0⟩,
   ⟨"B", "Y", "n2", none, 0, 3, 0, 0⟩]

/-- C5 witness: the amended outer-join contract instantiated at a concrete
duplicate-free table. -/
theorem c5_outer_join_witness :
    ∃ rows, compare_universities_df exMdPair "A" "B" MetricCol.overallTotal
        = Except.ok rows ∧ (rows.map (fun r => r.code)).Nodup := by
  rcases c5_outer_join exMdPair "A" "B" MetricCol.overallTotal (by decide) (by decide)
    with ⟨rows, h1, h2, _⟩
  exact ⟨rows, h1, h2⟩

theorem comp_summary_perm {rows rows' : List CompRow}
    (h : List.Perm rows rows') : comp_summary rows = comp_summary rows' := by
  rw [comp_summary, comp_summary,
    (h.filter (fun r => decide (0 < r.diff_abs))).length_eq,
    (h.filter (fun r => decide (r.diff_abs < 0))).length_eq,
    (h.filter (fun r => decide (r.diff_abs = 0))).length_eq]

/-- A metrics-detail table whose A-vs-B comparison has one row where A is
strictly greater (code `C1`: 5 vs 0) and one where A is strictly less
(code `C2`: 0 vs 3). -/
def exMdCmp : List MetricsRecord :=
  [⟨"A", "C1", "n1", none, 0, 5, 0, 0⟩,
   ⟨"A", "C2", "n2", none, 0, 0, 0, 0⟩,
   ⟨"B", "C2", "n2", none, 0, 3, 0, 0⟩]

/-- The comparison row for code `C1` of `exMdCmp` (A-only, B side filled
with 0). -/
def exCmpRow1 : CompRow :=
  ⟨"C1", some "n1", none, 5, 0, 5 - 0, none⟩

/-- The comparison row for code `C2` of `exMdCmp`. -/
def exCmpRow2 : CompRow :=
  ⟨"C2", some "n2", none, 0, 3, 0 - 3, some ((0 - 3) / 3 * 100)⟩

/-- C1 counterexample: on `exMdCmp` with no category filter, truncating to
the top 1 row by `|diff_abs|` yields the summary triple (1, 0, 0), while
the full comparison set counts (1, 1, 0): the triple is computed after
truncation and depends on N. -/
theorem c1_counterexample :
    tab5_compare_summary exMdCmp "A" "B" MetricCol.overallTotal [] 1
      = Except.ok (1, 0, 0)
    ∧ (compare_universities_df exMdCmp "A" "B" MetricCol.overallTotal).map
        (fun rows => comp_summary (comp_filter_category [] rows))
      = Except.ok (1, 1, 0) := by
  have hcomp : compare_universities_df exMdCmp "A" "B" MetricCol.overallTotal
      = Except.ok [exCmpRow1, exCmpRow2] := rfl
  have hpos1 : (0 : ℚ) < 5 - 0 := by norm_num
  have hn1b : ¬((5 : ℚ) - 0 < 0) := by norm_num
  have hn1c : ¬((5 : ℚ) - 0 = 0) := by norm_num
  have hn2a : ¬((0 : ℚ) < 0 - 3) := by norm_num
  have hlt2 : (0 : ℚ) - 3 < 0 := by norm_num
  have hn2c : ¬((0 : ℚ) - 3 = 0) := by norm_num
  have hs1 : comp_summary [exCmpRow1] = (1, 0, 0) := by
    simp [comp_summary, exCmpRow1, decide_eq_true hpos1, decide_eq_false hn1b,
      decide_eq_false hn1c]
  have hs2 : comp_summary [exCmpRow1, exCmpRow2] = (1, 1, 0) := by
    simp [comp_summary, exCmpRow1, exCmpRow2, decide_eq_true hpos1,
      decide_eq_false hn1b, decide_eq_false hn1c, decide_eq_false hn2a,
      decide_eq_true hlt2, decide_eq_false hn2c]
  have hsort : sortValuesDesc (fun r : CompRow => |r.diff_abs|)
      [exCmpRow1, exCmpRow2] = [exCmpRow1, exCmpRow2] := by
    have hle : |(0 : ℚ) - 3| ≤ |(5 : ℚ) - 0| := by norm_num
    show (if |(0 : ℚ) - 3| ≤ |(5 : ℚ) - 0|
        then [exCmpRow1, exCmpRow2]
        else exCmpRow2 :: insertDesc (fun r : CompRow => |r.diff_abs|) exCmpRow1 [])
      = [exCmpRow1, exCmpRow2]
    rw [if_pos hle]
  have htop : comp_top_n 1 (comp_filter_category [] [exCmpRow1, exCmpRow2])
      = [exCmpRow1] := by
    have hfc : comp_filter_category [] [exCmpRow1, exCmpRow2]
        = [exCmpRow1, exCmpRow2] := rfl
    rw [comp_top_n, hfc, hsort]
    rfl
  constructor
  · rw [tab5_compare_summary, hcomp]
    show Except.ok (comp_summary (comp_top_n 1
        (comp_filter_category [] [exCmpRow1, exCmpRow2]))) = Except.ok (1, 0, 0)
    rw [htop, hs1]
  · rw [hcomp]
    show Except.ok (comp_summary (comp_filter_category [] [exCmpRow1, exCmpRow2]))
      = Except.ok (1, 1, 0)
    have hfc : comp_filter_category [] [exCmpRow1, exCmpRow2]
        = [exCmpRow1, exCmpRow2] := rfl
    rw [hfc, hs2]

/-- C1 amended: the summary triple is counted over the truncated top-N
rows; whenever N is at least the number of category-filtered rows the
truncation is the identity and the triple equals the counts over the full
filtered set (the sort being a permutation cannot change the counts), but
for smaller N the triple depends on N, as the counterexample shows. -/
theorem c1_summary_counts_truncated (rows : List CompRow)
    (cat_filter : List String) (show_n : Nat)
    (h : (comp_filter_category cat_filter rows).length ≤ show_n) :
    comp_summary (comp_top_n show_n (comp_filter_category cat_filter rows))
      = comp_summary (comp_filter_category cat_filter rows) := by
  rw [comp_top_n,
    List.take_of_length_le (by rw [length_sortValuesDesc]; exact h)]
  exact comp_summary_perm (sortValuesDesc_perm _ _)

/-- C1 witness: the amended statement instantiated at a concrete two-row
set with N = 3 ≥ 2. -/
theorem c1_summary_counts_truncated_witness :
    comp_summary (comp_top_n 3 (comp_filter_category [] [exCmpRow1, exCmpRow2]))
      = comp_summary (comp_filter_category [] [exCmpRow1, exCmpRow2]) :=
  c1_summary_counts_truncated [exCmpRow1, exCmpRow2] [] 3 (by decide)

end Sinta
